import Mathlib

/-!
# Verification of the `verboten` repository

Shallow embedding of the Verboten ("Proscribed Words") game code:

* `cmd/cli/verboten_cli.go` — the turn-based CLI variant: string
  normalization (`normalize`), the win predicate (`isWinning`), the
  verdict judge pipeline (`saidForbidden`, `haveSameRoot`,
  `isTranslation`) and one turn of the main game loop.
* the web server file (package `verboten`) — the live game
  orchestrator `liveGame` with its guesser-relay loop, the
  client-to-both-sessions fan-out loop and the judge-listen loop.

The external AI backend (`google.golang.org/genai`) is modelled as an
environment of response functions; JSON (un)marshalling of backend
payloads is likewise abstracted as environment functions.  The Unicode
transform chain `NFD ∘ Remove(Mn) ∘ NFC` composed with `strings.ToLower`
is modelled over ASCII plus the precomposed Latin-1 letters (the
alphabet the word catalog and the spec examples use), with combining
marks U+0300–U+036F.
-/

set_option maxRecDepth 4000

namespace Verboten

/-- Strings are modelled as lists of characters. -/
abbrev Str := List Char

/-- First-match association-list lookup (the shape of every character
table below). -/
def alookup {α β : Type} [DecidableEq α] : List (α × β) → α → Option β
  | [], _ => none
  | (k, v) :: rest, a => if k = a then some v else alookup rest a

/-- Combining grave accent U+0300. -/
def markGrave : Char := Char.ofNat 0x0300
/-- Combining acute accent U+0301. -/
def markAcute : Char := Char.ofNat 0x0301
/-- Combining circumflex accent U+0302. -/
def markCirc : Char := Char.ofNat 0x0302
/-- Combining tilde U+0303. -/
def markTilde : Char := Char.ofNat 0x0303
/-- Combining diaeresis U+0308. -/
def markDiaer : Char := Char.ofNat 0x0308
/-- Combining ring above U+030A. -/
def markRing : Char := Char.ofNat 0x030A
/-- Combining cedilla U+0327. -/
def markCedil : Char := Char.ofNat 0x0327

/-- Lower-casing table of `strings.ToLower`, restricted to ASCII letters
and the precomposed Latin-1 uppercase letters. -/
def lowerTable : List (Char × Char) :=
  [('A', 'a'), ('B', 'b'), ('C', 'c'), ('D', 'd'), ('E', 'e'), ('F', 'f'),
   ('G', 'g'), ('H', 'h'), ('I', 'i'), ('J', 'j'), ('K', 'k'), ('L', 'l'),
   ('M', 'm'), ('N', 'n'), ('O', 'o'), ('P', 'p'), ('Q', 'q'), ('R', 'r'),
   ('S', 's'), ('T', 't'), ('U', 'u'), ('V', 'v'), ('W', 'w'), ('X', 'x'),
   ('Y', 'y'), ('Z', 'z'),
   ('À', 'à'), ('Á', 'á'), ('Â', 'â'), ('Ã', 'ã'), ('Ä', 'ä'), ('Å', 'å'),
   ('Ç', 'ç'), ('È', 'è'), ('É', 'é'), ('Ê', 'ê'), ('Ë', 'ë'), ('Ì', 'ì'),
   ('Í', 'í'), ('Î', 'î'), ('Ï', 'ï'), ('Ñ', 'ñ'), ('Ò', 'ò'), ('Ó', 'ó'),
   ('Ô', 'ô'), ('Õ', 'õ'), ('Ö', 'ö'), ('Ù', 'ù'), ('Ú', 'ú'), ('Û', 'û'),
   ('Ü', 'ü'), ('Ý', 'ý')]

/-- `strings.ToLower` on one character (identity outside the table). -/
def goToLower (c : Char) : Char := (alookup lowerTable c).getD c

/-- Canonical (NFD) decomposition table for the precomposed lowercase
Latin-1 letters.  `strings.ToLower` runs before the transform chain in
`normalize`, so only lowercase forms can reach the decomposition. -/
def decompTable : List (Char × Str) :=
  [('à', ['a', markGrave]), ('á', ['a', markAcute]), ('â', ['a', markCirc]),
   ('ã', ['a', markTilde]), ('ä', ['a', markDiaer]), ('å', ['a', markRing]),
   ('ç', ['c', markCedil]), ('è', ['e', markGrave]), ('é', ['e', markAcute]),
   ('ê', ['e', markCirc]), ('ë', ['e', markDiaer]), ('ì', ['i', markGrave]),
   ('í', ['i', markAcute]), ('î', ['i', markCirc]), ('ï', ['i', markDiaer]),
   ('ñ', ['n', markTilde]), ('ò', ['o', markGrave]), ('ó', ['o', markAcute]),
   ('ô', ['o', markCirc]), ('õ', ['o', markTilde]), ('ö', ['o', markDiaer]),
   ('ù', ['u', markGrave]), ('ú', ['u', markAcute]), ('û', ['u', markCirc]),
   ('ü', ['u', markDiaer]), ('ý', ['y', markAcute]), ('ÿ', ['y', markDiaer])]

/-- NFD on one character (identity outside the table). -/
def decompose (c : Char) : Str := (alookup decompTable c).getD [c]

/-- `unicode.Mn` membership, restricted to the combining diacritical
marks block U+0300–U+036F (the marks the model produces). -/
def isMn (c : Char) : Bool := decide (0x0300 ≤ c.toNat) && decide (c.toNat ≤ 0x036F)

/-- The NFD step of the transform chain. -/
def nfd (s : Str) : Str := s.flatMap decompose

/-- The `runes.Remove(runes.In(unicode.Mn))` step. -/
def removeMn (s : Str) : Str := s.filter (fun c => !isMn c)

/-- Canonical composition table (inverse of `decompTable`). -/
def composeTable : List ((Char × Char) × Char) :=
  [(('a', markGrave), 'à'), (('a', markAcute), 'á'), (('a', markCirc), 'â'),
   (('a', markTilde), 'ã'), (('a', markDiaer), 'ä'), (('a', markRing), 'å'),
   (('c', markCedil), 'ç'), (('e', markGrave), 'è'), (('e', markAcute), 'é'),
   (('e', markCirc), 'ê'), (('e', markDiaer), 'ë'), (('i', markGrave), 'ì'),
   (('i', markAcute), 'í'), (('i', markCirc), 'î'), (('i', markDiaer), 'ï'),
   (('n', markTilde), 'ñ'), (('o', markGrave), 'ò'), (('o', markAcute), 'ó'),
   (('o', markCirc), 'ô'), (('o', markTilde), 'õ'), (('o', markDiaer), 'ö'),
   (('u', markGrave), 'ù'), (('u', markAcute), 'ú'), (('u', markCirc), 'û'),
   (('u', markDiaer), 'ü'), (('y', markAcute), 'ý'), (('y', markDiaer), 'ÿ')]

/-- Fuel-indexed canonical composition: recompose a base character with
a following combining mark.  Each step shortens the list, so a fuel of
`s.length` always suffices. -/
def nfcFuel : Nat → Str → Str
  | 0, s => s
  | _ + 1, [] => []
  | _ + 1, [c] => [c]
  | fuel + 1, c :: d :: rest =>
    match alookup composeTable (c, d) with
    | some e => nfcFuel fuel (e :: rest)
    | none => c :: nfcFuel fuel (d :: rest)

/-- The NFC step of the transform chain. -/
def nfc (s : Str) : Str := nfcFuel s.length s

/-- `normalize` of `verboten_cli.go`: lowercase, then the transform
chain `NFD → Remove(Mn) → NFC`. -/
def normalize (s : Str) : Str := nfc (removeMn (nfd (s.map goToLower)))

/-- `normalize` lifted to Lean `String` values. -/
def normalizeStr (s : String) : String := String.mk (normalize s.data)

/-- `strings.HasPrefix`: does `s` start with `pat`? -/
def goStartsWith : Str → Str → Bool
  | _, [] => true
  | [], _ :: _ => false
  | c :: s, p :: ps => decide (c = p) && goStartsWith s ps

/-- `strings.Contains`: does `s` contain `pat` as a contiguous
substring? -/
def goContains : Str → Str → Bool
  | [], pat => pat.isEmpty
  | c :: s, pat => goStartsWith (c :: s) pat || goContains s pat

/-- The `forbiddenWord` struct of `verboten_cli.go` (one word-catalog
entry plus the language name set by `main`). -/
structure forbiddenWord where
  word : String
  forbidden : List String
  languageName : String
deriving DecidableEq

/-- `(*forbiddenWord).isWinning`: the guess wins iff the normalized
guess contains the normalized secret word as a substring.  (The Go
function also returns an always-`nil` error, elided here.) -/
def isWinning (fw : forbiddenWord) (guess : String) : Bool :=
  goContains (normalize guess.data) (normalize fw.word.data)

/-! ## The turn-based verdict pipeline (`saidForbidden` and friends) -/

/-- Go `error` values, identified by their message. -/
abbrev GoErr := String

/-- A single-quote character, used when assembling the Go prompt
strings built with `fmt.Sprintf`. -/
def sq : String := String.mk [Char.ofNat 39]

/-- The structured-output JSON object `saidForbidden` requests:
`{lost: bool, forbiddenWord: string, fragment: string}`. -/
structure Judgment where
  lost : Bool
  forbiddenWord : String
  fragment : String
deriving DecidableEq

/-- The four named results of `(*forbiddenWord).saidForbidden`. -/
structure SFReturn where
  lost : Bool
  forbiddenSaid : String
  forbiddenMatched : String
  err : Option GoErr
deriving DecidableEq

/-- One request issued to the Gemini backend by the pipeline. -/
inductive GenaiCall
  | structured (systemInstruction userPrompt : String)
  | yesNo (userPrompt : String)
deriving DecidableEq

/-- Environment modelling the Gemini backend and the JSON decoding of
its structured answer: `generateStructured` is
`client.Models.GenerateContent` under the judge config (returning the
response text), `unmarshalJudgment` is `json.Unmarshal` into the
result struct, and `generateYesNo` is `GenerateContent` with `nil`
config for the two confirmation questions. -/
structure GenaiEnv where
  generateStructured : String → String → Except GoErr String
  unmarshalJudgment : String → Except GoErr Judgment
  generateYesNo : String → Except GoErr String

/-- `strings.ToLower` on a whole string. -/
def goStringToLower (s : String) : String := String.mk (s.data.map goToLower)

/-- The prompt built by `haveSameRoot`
(whitespace condensed to single spaces). -/
def sameRootPrompt (word1 word2 : String) : String :=
  "Can we say that the words " ++ sq ++ word1 ++ sq ++ " and " ++ sq ++ word2 ++ sq ++
  " share the same root? Answer just Yes or No, and nothing else."

/-- The prompt built by `isTranslation`
(whitespace condensed to single spaces). -/
def translationPrompt (word1 word2 word2Lang : String) : String :=
  "Can we say that the word " ++ sq ++ word1 ++ sq ++ " is a translation of the " ++
  word2Lang ++ " word " ++ sq ++ word2 ++ sq ++
  " in another language? Answer just Yes or No, and nothing else."

/-- `haveSameRoot`: ask the backend the same-root yes/no question and
lowercase-compare the answer with "yes".  Returned with the list of
backend calls it issued. -/
def haveSameRoot (env : GenaiEnv) (word1 word2 : String) :
    Except GoErr Bool × List GenaiCall :=
  let p := sameRootPrompt word1 word2
  match env.generateYesNo p with
  | .error e => (.error e, [.yesNo p])
  | .ok text => (.ok (goStringToLower text == "yes"), [.yesNo p])

/-- `isTranslation`: ask the backend the translation yes/no question
and lowercase-compare the answer with "yes".  Returned with the list
of backend calls it issued. -/
def isTranslation (env : GenaiEnv) (word1 word2 word2Lang : String) :
    Except GoErr Bool × List GenaiCall :=
  let p := translationPrompt word1 word2 word2Lang
  match env.generateYesNo p with
  | .error e => (.error e, [.yesNo p])
  | .ok text => (.ok (goStringToLower text == "yes"), [.yesNo p])

/-- The system instruction `saidForbidden` sends with its structured
request (whitespace condensed; the embedded word list is the game word
followed by its forbidden synonyms). -/
def judgeSystemInstruction (fw : forbiddenWord) : String :=
  "You are the judge in the Proscribed Words game. " ++
  "The human player will say a description. " ++
  "If the prompt contains any of the proscribed words, or an inflection of a forbidden " ++
  "word, or a proscribed word translated in another language, then the game is lost. " ++
  "The proscribed words are: " ++
  fw.word ++ ", " ++ String.intercalate ", " fw.forbidden ++ " " ++
  "In the field \"forbiddenWord\", provide exactly one of the original proscribed words. " ++
  "In the field \"fragment\", provide the part of the prompt that violated the rule. " ++
  "The description must be rejected as using a proscribed word only if it actually contains " ++
  "an inflection, or misspelling, or translation of a proscribed word. " ++
  "Synonyms of proscribed words must not trigger a lost game."

/-- The error wrapping of `fmt.Errorf` around a JSON parse failure. -/
def wrapParseErr (e : GoErr) : GoErr := "failed to parse AI response: " ++ e

/-- `(*forbiddenWord).saidForbidden`: one structured judgment, then —
only when it reports `lost` — the two concurrent confirmation checks,
joined with errgroup semantics (both checks are issued; any error makes
the pipeline return an error).  The result is paired with the ordered
list of backend calls issued.  The Go code prints judge commentary to
stdout on the confirmation branches; that output is elided here.  When
both confirmation checks fail (errgroup races the two error returns),
the same-root error is reported. -/
def saidForbidden (env : GenaiEnv) (fw : forbiddenWord) (said : String) :
    SFReturn × List GenaiCall :=
  let sys := judgeSystemInstruction fw
  let c0 : GenaiCall := .structured sys said
  match env.generateStructured sys said with
  | .error e => (⟨false, "", "", some e⟩, [c0])
  | .ok structureAnswer =>
    match env.unmarshalJudgment structureAnswer with
    | .error e => (⟨false, "", "", some (wrapParseErr e)⟩, [c0])
    | .ok result =>
      if !result.lost then
        (⟨false, "", "", none⟩, [c0])
      else
        let r1 := haveSameRoot env result.fragment result.forbiddenWord
        let r2 := isTranslation env result.fragment result.forbiddenWord fw.languageName
        let trace := c0 :: (r1.2 ++ r2.2)
        match r1.1, r2.1 with
        | .error e, _ => (⟨false, "", "", some e⟩, trace)
        | .ok _, .error e => (⟨false, "", "", some e⟩, trace)
        | .ok isSameRoot, .ok isTranslated =>
          if !isSameRoot && !isTranslated then
            (⟨false, "", "", none⟩, trace)
          else
            (⟨result.lost, result.fragment, result.forbiddenWord, none⟩, trace)

/-! ## One turn of the CLI main loop -/

/-- The joined results of the two concurrent tasks of one turn: the
judge check (`saidForbidden`) and the guesser reply
(`chat.SendMessage` followed by `textOf`). -/
structure TurnEnv where
  judgeResult : SFReturn
  guessResult : Except GoErr String

/-- How one iteration of the `guesses > 0` loop in `main` ends. -/
inductive TurnOutcome
  | fatal (e : GoErr)
  | lostExactMatch (matched : String)
  | lostFuzzyMatch (said matched : String)
  | aiWins
  | keepPlaying
deriving DecidableEq

/-- One iteration of the turn loop in `main`: wait for both concurrent
tasks (errgroup join; an error from either is `log.Fatal`), then act on
the judge verdict first — a confirmed loss ends the game before the
guess is even looked at — and only otherwise evaluate the guess with
`isWinning`. -/
def playTurn (fw : forbiddenWord) (env : TurnEnv) : TurnOutcome :=
  let waitErr : Option GoErr :=
    match env.judgeResult.err, env.guessResult with
    | some e, _ => some e
    | none, .error e => some e
    | none, .ok _ => none
  match waitErr with
  | some e => .fatal e
  | none =>
    if env.judgeResult.lost then
      if normalizeStr env.judgeResult.forbiddenSaid == normalizeStr env.judgeResult.forbiddenMatched
      then .lostExactMatch env.judgeResult.forbiddenMatched
      else .lostFuzzyMatch env.judgeResult.forbiddenSaid env.judgeResult.forbiddenMatched
    else
      match env.guessResult with
      | .error e => .fatal e
      | .ok aiResponse =>
        if isWinning fw aiResponse then .aiWins else .keepPlaying

/-! ## The live game orchestrator (`liveGame`) -/

namespace Live

/-- `genai.LiveRealtimeInput` as an opaque payload (relayed verbatim,
never reinterpreted). -/
structure LiveRealtimeInput where
  payload : String
deriving DecidableEq

/-- One `c.ReadMessage()` outcome on the client websocket. -/
inductive ClientRead
  | msg (raw : String)
  | readErr (m : String)
deriving DecidableEq

/-- One send performed by the fan-out loop. -/
inductive FanoutEvent
  | sentToGuesser (f : LiveRealtimeInput)
  | sentToJudge (f : LiveRealtimeInput)
deriving DecidableEq

/-- How the fan-out loop stops consuming reads. -/
inductive FanoutExit
  | clientReadFailed (m : String)
  | processFatalUnmarshal (raw : String)
  | blockedOnRead
deriving DecidableEq

/-- The human-speech loop of `liveGame`: read a frame from the client
websocket, `json.Unmarshal` it, and forward it first to the guesser
session and then to the judge session (`SendRealtimeInput`, whose
return values the Go code discards).  A read error breaks the loop; an
unmarshal error is `log.Fatal` — it aborts the whole process.
`blockedOnRead` is the model artifact for a finite read list that ends
without an error: the Go loop would still be blocked in
`ReadMessage`. -/
def fanoutLoop (unmarshal : String → Except GoErr LiveRealtimeInput) :
    List ClientRead → List FanoutEvent × FanoutExit
  | [] => ([], .blockedOnRead)
  | .readErr m :: _ => ([], .clientReadFailed m)
  | .msg raw :: rest =>
    match unmarshal raw with
    | .error _ => ([], .processFatalUnmarshal raw)
    | .ok f =>
      let (evs, ex) := fanoutLoop unmarshal rest
      (.sentToGuesser f :: .sentToJudge f :: evs, ex)

/-- The frames the guesser session received, in order. -/
def sentGuesser (evs : List FanoutEvent) : List LiveRealtimeInput :=
  evs.filterMap fun e =>
    match e with
    | .sentToGuesser f => some f
    | _ => none

/-- The frames the judge session received, in order. -/
def sentJudge (evs : List FanoutEvent) : List LiveRealtimeInput :=
  evs.filterMap fun e =>
    match e with
    | .sentToJudge f => some f
    | _ => none

/-- The `ServerContent.OutputTranscription` part of a live server
message (the `.Text` field when the transcription is present). -/
structure ServerContentModel where
  outputTranscription : Option String
deriving DecidableEq

/-- A `genai` live server message, as far as `liveGame` inspects it. -/
structure ServerMessage where
  serverContent : Option ServerContentModel
deriving DecidableEq

/-- An externally visible action of one of the relay loops: a
successful websocket write to the client, or a log line on the
server. -/
inductive RelayAction
  | writeToClient (payload : String)
  | logLine (line : String)
deriving DecidableEq

/-- One iteration input of the guesser relay loop: a `Receive` failure,
or a message together with the result of the subsequent
`WriteMessage` (`none` = the write succeeded). -/
inductive GuesserRecv
  | recvErr (m : String)
  | msg (e : ServerMessage) (writeResult : Option String)
deriving DecidableEq

/-- How the guesser relay loop ends. -/
inductive GuesserExit
  | modelDisconnected
  | processFatalMarshal
  | writeFailed
  | blockedOnRecv
deriving DecidableEq

/-- The guesser relay goroutine of `liveGame`: receive a server message
from the guesser session, `json.Marshal` it (a failure is `log.Fatal`),
and forward the serialized bytes to the client websocket; a receive
error returns from the loop, a write error breaks out of it. -/
def guesserLoop (marshal : ServerMessage → Except GoErr String) :
    List GuesserRecv → List RelayAction × GuesserExit
  | [] => ([], .blockedOnRecv)
  | .recvErr m :: _ =>
    ([.logLine ("guesser model deconnected: " ++ m)], .modelDisconnected)
  | .msg e wres :: rest =>
    match marshal e with
    | .error _ => ([], .processFatalMarshal)
    | .ok payload =>
      match wres with
      | some werr => ([.logLine ("write message error: " ++ werr)], .writeFailed)
      | none =>
        let (as, ex) := guesserLoop marshal rest
        (.writeToClient payload :: as, ex)

/-- One iteration input of the judge listen loop. -/
inductive JudgeRecv
  | recvErr (m : String)
  | msg (e : ServerMessage)
deriving DecidableEq

/-- How the judge listen loop ends. -/
inductive JudgeExit
  | judgeDisconnected
  | blockedOnRecv
deriving DecidableEq

/-- The judge listen goroutine of `liveGame`: receive a server message
from the judge session and, when an output transcription is present,
log it.  The `WriteMessage` to the client sits behind a `TODO` comment
in the source: the loop never writes to the client. -/
def judgeLoop (gameID : String) : List JudgeRecv → List RelayAction × JudgeExit
  | [] => ([], .blockedOnRecv)
  | .recvErr m :: _ =>
    ([.logLine ("judge deconnected: " ++ m)], .judgeDisconnected)
  | .msg e :: rest =>
    let here : List RelayAction :=
      match e.serverContent with
      | some sc =>
        match sc.outputTranscription with
        | some t => [.logLine ("Game " ++ gameID ++ " Judge says " ++ t)]
        | none => []
      | none => []
    let (as, ex) := judgeLoop gameID rest
    (here ++ as, ex)

/-- Result of `upgrader.Upgrade`. -/
inductive UpgradeResult
  | success
  | failure (m : String)
deriving DecidableEq

/-- Result of `genaiClient.Live.Connect`. -/
inductive ConnectResult
  | success
  | failure (m : String)
deriving DecidableEq

/-- The environment one `liveGame` invocation runs against. -/
structure LiveEnv where
  lang : String
  upgrade : UpgradeResult
  connectGuesser : ConnectResult
  connectJudge : ConnectResult
  unmarshal : String → Except GoErr LiveRealtimeInput
  clientReads : List ClientRead

/-- One step of the sequential control flow of the `liveGame` handler
itself (the two spawned loops run as separate goroutines and are
modelled by `guesserLoop` and `judgeLoop`; only their spawn points
appear here). -/
inductive LiveStep
  | spawnedGuesserLoop
  | fanout (e : FanoutEvent)
  | fanoutEnded (ex : FanoutExit)
  | spawnedJudgeLoop
  | returnedAndClosed
deriving DecidableEq

/-- How the `liveGame` handler invocation ends. -/
inductive LiveOutcome
  | notFound
  | processFatal (site : String)
  | blocked
  | returned
deriving DecidableEq

/-- The languages the `switch lang` in `liveGame` accepts. -/
def supportedLang (lang : String) : Bool :=
  lang == "en" || lang == "fr" || lang == "ar"

/-- The `liveGame` handler: language dispatch, websocket upgrade,
connect the guesser session, connect the judge session (an error in
any of the latter three is `log.Fatal`), spawn the guesser relay
goroutine, run the fan-out loop inline, and — only after that loop has
ended — spawn the judge listen goroutine and return (running the
deferred `Close` calls on both sessions and the client connection). -/
def liveGame (env : LiveEnv) : List LiveStep × LiveOutcome :=
  if !supportedLang env.lang then ([], .notFound)
  else
    match env.upgrade with
    | .failure m => ([], .processFatal ("upgrade error: " ++ m))
    | .success =>
      match env.connectGuesser with
      | .failure m => ([], .processFatal ("connect to model error: " ++ m))
      | .success =>
        match env.connectJudge with
        | .failure m => ([], .processFatal ("connect to model error: " ++ m))
        | .success =>
          let (evs, ex) := fanoutLoop env.unmarshal env.clientReads
          let steps := LiveStep.spawnedGuesserLoop :: evs.map .fanout
          match ex with
          | .processFatalUnmarshal raw =>
            (steps ++ [.fanoutEnded (.processFatalUnmarshal raw)],
             .processFatal ("unmarshal message error " ++ raw))
          | .blockedOnRead => (steps, .blocked)
          | .clientReadFailed m =>
            (steps ++ [.fanoutEnded (.clientReadFailed m),
                       .spawnedJudgeLoop, .returnedAndClosed],
             .returned)

end Live

/-! ## Supporting lemmas -/

/-- A successful lookup returns a pair of the table. -/
theorem alookup_mem {α β : Type} [DecidableEq α] {t : List (α × β)} {a : α} {b : β}
    (h : alookup t a = some b) : (a, b) ∈ t := by
  induction t with
  | nil => simp [alookup] at h
  | cons p rest ih =>
    obtain ⟨k, v⟩ := p
    by_cases hk : k = a
    · simp [alookup, hk] at h
      subst hk h
      exact List.mem_cons_self _ _
    · simp [alookup, hk] at h
      exact List.mem_cons_of_mem _ (ih h)

/-- `goStartsWith` agrees with list-prefix decomposition. -/
theorem goStartsWith_iff (s pat : Str) :
    goStartsWith s pat = true ↔ ∃ rest, s = pat ++ rest := by
  induction pat generalizing s with
  | nil => simp [goStartsWith]
  | cons p ps ih =>
    cases s with
    | nil => simp [goStartsWith]
    | cons c s1 =>
      simp only [goStartsWith, Bool.and_eq_true, decide_eq_true_eq, ih, List.cons_append]
      constructor
      · rintro ⟨rfl, rest, rfl⟩
        exact ⟨rest, rfl⟩
      · rintro ⟨rest, h⟩
        injection h with h1 h2
        exact ⟨h1, rest, h2⟩

/-- `goContains` agrees with substring decomposition. -/
theorem goContains_iff (s pat : Str) :
    goContains s pat = true ↔ ∃ pre post, s = pre ++ pat ++ post := by
  induction s with
  | nil =>
    simp only [goContains, List.isEmpty_iff]
    constructor
    · rintro rfl
      exact ⟨[], [], rfl⟩
    · rintro ⟨pre, post, h⟩
      rcases List.append_eq_nil.mp (List.append_eq_nil.mp h.symm).1 with ⟨-, hp⟩
      exact hp
  | cons c s1 ih =>
    simp only [goContains, Bool.or_eq_true, goStartsWith_iff, ih]
    constructor
    · rintro (⟨rest, h⟩ | ⟨pre, post, h⟩)
      · exact ⟨[], rest, by simpa using h⟩
      · exact ⟨c :: pre, post, by simp [h]⟩
    · rintro ⟨pre, post, h⟩
      cases pre with
      | nil =>
        exact Or.inl ⟨post, by simpa using h⟩
      | cons x pre1 =>
        simp only [List.cons_append] at h
        injection h with h1 h2
        exact Or.inr ⟨pre1, post, h2⟩

/-- No value of the lower-casing table is itself a key: lower-casing a
second time finds nothing to change. -/
theorem lowerTable_values_fixed :
    ∀ p ∈ lowerTable, alookup lowerTable p.2 = none := by decide

/-- `strings.ToLower` is idempotent on characters. -/
theorem goToLower_idem (c : Char) : goToLower (goToLower c) = goToLower c := by
  cases h : alookup lowerTable c with
  | none => simp [goToLower, h]
  | some v =>
    have hv := lowerTable_values_fixed (c, v) (alookup_mem h)
    simp [goToLower, h, hv]

/-- After stripping combining marks, every character a decomposition
produces is fully normal: lowercase-fixed, decomposition-fixed, and
not a mark. -/
theorem decompTable_out_normal :
    ∀ p ∈ decompTable, ∀ d ∈ removeMn p.2,
      goToLower d = d ∧ decompose d = [d] ∧ isMn d = false := by decide

/-- Every key of the composition table has a combining mark in second
position. -/
theorem composeTable_mark_keys :
    ∀ p ∈ composeTable, isMn p.1.2 = true := by decide

/-- One pass of lowercase-decompose-strip leaves only fully normal
characters. -/
theorem pass_output_normal (c : Char) :
    ∀ d ∈ removeMn (decompose (goToLower c)),
      goToLower d = d ∧ decompose d = [d] ∧ isMn d = false := by
  intro d hd
  cases h : alookup decompTable (goToLower c) with
  | some l =>
    rw [decompose, h] at hd
    exact decompTable_out_normal (goToLower c, l) (alookup_mem h) d hd
  | none =>
    rw [decompose, h] at hd
    cases hmn : isMn (goToLower c) with
    | true => simp [removeMn, hmn] at hd
    | false =>
      simp only [removeMn, Option.getD_none, List.filter_cons, hmn, Bool.not_false,
        List.filter_nil, if_true, List.mem_singleton] at hd
      subst hd
      exact ⟨goToLower_idem c, by rw [decompose, h]; rfl, hmn⟩

/-- `nfcFuel` finds nothing to compose in a string without combining
marks. -/
theorem nfcFuel_no_mark (fuel : Nat) (s : Str) (h : ∀ c ∈ s, isMn c = false) :
    nfcFuel fuel s = s := by
  induction fuel generalizing s with
  | zero => rfl
  | succ n ih =>
    cases s with
    | nil => rfl
    | cons c s1 =>
      cases s1 with
      | nil => rfl
      | cons d rest =>
        cases hcd : alookup composeTable (c, d) with
        | some e =>
          have hmark := composeTable_mark_keys ((c, d), e) (alookup_mem hcd)
          have hd := h d (by simp)
          rw [hd] at hmark
          exact absurd hmark (by simp)
        | none =>
          simp only [nfcFuel, hcd]
          rw [ih (d :: rest) (fun x hx => h x (List.mem_cons_of_mem c hx))]

/-- Mapping a function that fixes every member is the identity. -/
theorem map_fixed {f : Char → Char} {l : Str} (h : ∀ c ∈ l, f c = c) :
    l.map f = l := by
  induction l with
  | nil => rfl
  | cons c t ih =>
    simp only [List.map_cons, h c (List.mem_cons_self c t),
      ih (fun x hx => h x (List.mem_cons_of_mem c hx))]

/-- Flat-mapping a function that sends every member to its singleton is
the identity. -/
theorem flatMap_fixed {f : Char → Str} {l : Str} (h : ∀ c ∈ l, f c = [c]) :
    l.flatMap f = l := by
  induction l with
  | nil => rfl
  | cons c t ih =>
    simp only [List.flatMap_cons, h c (List.mem_cons_self c t),
      ih (fun x hx => h x (List.mem_cons_of_mem c hx)), List.singleton_append]

/-- The final NFC step of `normalize` composes nothing: all combining
marks were just removed. -/
theorem normalize_eq_strip (s : Str) :
    normalize s = removeMn (nfd (s.map goToLower)) := by
  rw [normalize, nfc]
  apply nfcFuel_no_mark
  intro c hc
  have := (List.mem_filter.mp hc).2
  simpa using this

/-- Every character of a normalized string is fully normal. -/
theorem normalize_chars_normal (s : Str) :
    ∀ d ∈ normalize s, goToLower d = d ∧ decompose d = [d] ∧ isMn d = false := by
  intro d hd
  rw [normalize_eq_strip, removeMn] at hd
  obtain ⟨hmem, hnotmn⟩ := List.mem_filter.mp hd
  rw [nfd] at hmem
  obtain ⟨x, hx, hdx⟩ := List.mem_flatMap.mp hmem
  obtain ⟨c, -, rfl⟩ := List.mem_map.mp hx
  apply pass_output_normal c
  rw [removeMn]
  exact List.mem_filter.mpr ⟨hdx, hnotmn⟩

namespace Live

/-- Running the fan-out loop on successfully-decoding frames forwards
each frame to the guesser and then to the judge, and continues with the
remaining reads. -/
theorem fanoutLoop_msgs (unmarshal : String → Except GoErr LiveRealtimeInput)
    {raws : List String} {fs : List LiveRealtimeInput}
    (h : List.Forall₂ (fun raw f => unmarshal raw = .ok f) raws fs)
    (tail : List ClientRead) :
    fanoutLoop unmarshal (raws.map ClientRead.msg ++ tail) =
      ((fs.flatMap fun f => [.sentToGuesser f, .sentToJudge f]) ++
         (fanoutLoop unmarshal tail).1,
       (fanoutLoop unmarshal tail).2) := by
  induction h with
  | nil => simp
  | cons hr ht ih => simp [fanoutLoop, hr, ih]

/-- Projecting the guesser sends out of the per-frame send pairs
recovers the frame list. -/
theorem sentGuesser_pairs (fs : List LiveRealtimeInput) :
    sentGuesser (fs.flatMap fun f => [.sentToGuesser f, .sentToJudge f]) = fs := by
  induction fs with
  | nil => rfl
  | cons f t ih => simp [sentGuesser, List.filterMap_cons] at ih ⊢; exact ih

/-- Projecting the judge sends out of the per-frame send pairs recovers
the frame list. -/
theorem sentJudge_pairs (fs : List LiveRealtimeInput) :
    sentJudge (fs.flatMap fun f => [.sentToGuesser f, .sentToJudge f]) = fs := by
  induction fs with
  | nil => rfl
  | cons f t ih => simp [sentJudge, List.filterMap_cons] at ih ⊢; exact ih

/-- C2: during the fan-out loop, every successfully deserialized frame
is forwarded unmodified to the guesser session and then to the judge
session, in that order; both sessions receive exactly the client frames
in the order the client sent them (no reordering, no drops), both for a
run still in progress and for a run ended by the client disconnecting. -/
theorem C2_fanout_preserves_order (unmarshal : String → Except GoErr LiveRealtimeInput)
    (raws : List String) (fs : List LiveRealtimeInput)
    (h : List.Forall₂ (fun raw f => unmarshal raw = .ok f) raws fs) :
    ((fanoutLoop unmarshal (raws.map ClientRead.msg)).1 =
        fs.flatMap fun f => [.sentToGuesser f, .sentToJudge f]) ∧
    sentGuesser (fanoutLoop unmarshal (raws.map ClientRead.msg)).1 = fs ∧
    sentJudge (fanoutLoop unmarshal (raws.map ClientRead.msg)).1 = fs ∧
    ∀ m : String,
      ((fanoutLoop unmarshal (raws.map ClientRead.msg ++ [ClientRead.readErr m])).1 =
          fs.flatMap fun f => [.sentToGuesser f, .sentToJudge f]) ∧
      sentGuesser
        (fanoutLoop unmarshal (raws.map ClientRead.msg ++ [ClientRead.readErr m])).1 = fs ∧
      sentJudge
        (fanoutLoop unmarshal (raws.map ClientRead.msg ++ [ClientRead.readErr m])).1 = fs := by
  have h0 := fanoutLoop_msgs unmarshal h []
  simp only [List.append_nil] at h0
  have hbase : (fanoutLoop unmarshal (raws.map ClientRead.msg)).1 =
      fs.flatMap fun f => [.sentToGuesser f, .sentToJudge f] := by
    rw [h0]
    simp [fanoutLoop]
  refine ⟨hbase, by rw [hbase]; exact sentGuesser_pairs fs,
    by rw [hbase]; exact sentJudge_pairs fs, ?_⟩
  intro m
  have h1 := fanoutLoop_msgs unmarshal h [ClientRead.readErr m]
  have hbase1 : (fanoutLoop unmarshal
      (raws.map ClientRead.msg ++ [ClientRead.readErr m])).1 =
      fs.flatMap fun f => [.sentToGuesser f, .sentToJudge f] := by
    rw [h1]
    simp [fanoutLoop]
  exact ⟨hbase1, by rw [hbase1]; exact sentGuesser_pairs fs,
    by rw [hbase1]; exact sentJudge_pairs fs⟩

/-- Witness for C2 at a concrete two-frame run. -/
theorem C2_witness :
    ((fanoutLoop (fun raw => .ok ⟨raw⟩)
        [ClientRead.msg "audio-1", ClientRead.msg "audio-2"]).1 =
      [.sentToGuesser ⟨"audio-1"⟩, .sentToJudge ⟨"audio-1"⟩,
       .sentToGuesser ⟨"audio-2"⟩, .sentToJudge ⟨"audio-2"⟩]) ∧
    sentGuesser (fanoutLoop (fun raw => .ok ⟨raw⟩)
        [ClientRead.msg "audio-1", ClientRead.msg "audio-2"]).1 =
      [⟨"audio-1"⟩, ⟨"audio-2"⟩] := by
  have h := C2_fanout_preserves_order (fun raw => .ok ⟨raw⟩)
    ["audio-1", "audio-2"] [⟨"audio-1"⟩, ⟨"audio-2"⟩]
    (List.Forall₂.cons rfl (List.Forall₂.cons rfl List.Forall₂.nil))
  exact ⟨h.1, h.2.1⟩

/-- C3: a malformed (non-deserializable) frame on the live channel hits
the `log.Fatal` in the fan-out loop — the model records a
process-fatal exit, not a graceful per-game termination: the whole
server process aborts. -/
theorem C3_malformed_frame_process_fatal :
    fanoutLoop (fun _ => .error "invalid character") [ClientRead.msg "not json"] =
      ([], FanoutExit.processFatalUnmarshal "not json") ∧
    (liveGame ⟨"en", .success, .success, .success,
        fun _ => .error "invalid character", [ClientRead.msg "not json"]⟩).2 =
      LiveOutcome.processFatal "unmarshal message error not json" := by
  exact ⟨rfl, rfl⟩

/-- C4: transport failures after startup — the websocket upgrade
failing, or either `Live.Connect` call failing while setting up a game
— all run into `log.Fatal`: the model records a process-fatal exit for
each, so the server process does terminate on post-startup transport
errors. -/
theorem C4_transport_errors_process_fatal :
    (liveGame ⟨"en", .failure "bad handshake", .success, .success,
        fun raw => .ok ⟨raw⟩, []⟩).2 =
      LiveOutcome.processFatal "upgrade error: bad handshake" ∧
    (liveGame ⟨"en", .success, .failure "dial tcp: connection refused", .success,
        fun raw => .ok ⟨raw⟩, []⟩).2 =
      LiveOutcome.processFatal "connect to model error: dial tcp: connection refused" ∧
    (liveGame ⟨"en", .success, .success, .failure "dial tcp: connection refused",
        fun raw => .ok ⟨raw⟩, []⟩).2 =
      LiveOutcome.processFatal "connect to model error: dial tcp: connection refused" := by
  exact ⟨rfl, rfl, rfl⟩

/-- C7: the judge listen loop never writes to the client — its actions
are log lines only — and every payload the client receives from the
guesser relay loop is the serialization of an event received from the
guesser session. -/
theorem C7_client_sees_only_guesser_events :
    (∀ (gameID : String) (rs : List JudgeRecv) (p : String),
       RelayAction.writeToClient p ∉ (judgeLoop gameID rs).1) ∧
    (∀ (marshal : ServerMessage → Except GoErr String)
       (rs : List GuesserRecv) (p : String),
       RelayAction.writeToClient p ∈ (guesserLoop marshal rs).1 →
       ∃ e wres, GuesserRecv.msg e wres ∈ rs ∧ marshal e = .ok p) := by
  constructor
  · intro gameID rs p
    induction rs with
    | nil => simp [judgeLoop]
    | cons r t ih =>
      cases r with
      | recvErr m => simp [judgeLoop]
      | msg e =>
        obtain ⟨sc⟩ := e
        cases sc with
        | none => simpa [judgeLoop] using ih
        | some c =>
          obtain ⟨ot⟩ := c
          cases ot with
          | none => simpa [judgeLoop] using ih
          | some t1 => simpa [judgeLoop] using ih
  · intro marshal rs p
    induction rs with
    | nil => simp [guesserLoop]
    | cons r t ih =>
      cases r with
      | recvErr m => simp [guesserLoop]
      | msg e wres =>
        cases hm : marshal e with
        | error e0 => simp [guesserLoop, hm]
        | ok payload =>
          cases wres with
          | some werr => simp [guesserLoop, hm]
          | none =>
            intro hmem
            simp only [guesserLoop, hm, List.mem_cons] at hmem
            rcases hmem with h | h
            · refine ⟨e, none, by simp, ?_⟩
              rw [hm]
              injection h with h1
              rw [h1]
            · obtain ⟨e1, w1, hmem1, hok1⟩ := ih h
              exact ⟨e1, w1, List.mem_cons_of_mem _ hmem1, hok1⟩

/-- Witness for C7 at concrete loop runs. -/
theorem C7_witness :
    (RelayAction.writeToClient "payload" ∉
      (judgeLoop "g1" [JudgeRecv.msg ⟨some ⟨some "you said rope"⟩⟩]).1) ∧
    ∃ e wres, GuesserRecv.msg e wres ∈ [GuesserRecv.msg ⟨none⟩ none] ∧
      (fun _ : ServerMessage => (Except.ok "payload" : Except GoErr String)) e =
        .ok "payload" := by
  refine ⟨C7_client_sees_only_guesser_events.1 "g1" _ "payload", ?_⟩
  apply C7_client_sees_only_guesser_events.2
    (fun _ : ServerMessage => (Except.ok "payload" : Except GoErr String))
    [GuesserRecv.msg ⟨none⟩ none] "payload"
  simp [guesserLoop]

/-- C8: evaluating the `liveGame` handler on a successful setup shows
its actual control flow: the guesser relay goroutine is spawned, the
fan-out loop runs inline, and the judge listen goroutine is spawned
only after the fan-out loop has ended — immediately before the handler
returns and the deferred `Close` calls tear both sessions down.  The
three relay loops are therefore not all concurrent with one another:
the judge loop never runs during the game. -/
theorem C8_judge_loop_spawned_after_fanout :
    liveGame ⟨"en", .success, .success, .success, fun raw => .ok ⟨raw⟩,
        [ClientRead.msg "frame-1", ClientRead.readErr "websocket: close"]⟩ =
      ([LiveStep.spawnedGuesserLoop,
        .fanout (.sentToGuesser ⟨"frame-1"⟩), .fanout (.sentToJudge ⟨"frame-1"⟩),
        .fanoutEnded (.clientReadFailed "websocket: close"),
        .spawnedJudgeLoop, .returnedAndClosed],
       LiveOutcome.returned) := by
  rfl

end Live

/-! ## Claim theorems for the CLI variant -/

/-- C1: in the turn-based verdict pipeline, a `lost=false` structured
judgment makes `saidForbidden` return no violation immediately, with
the structured request as the only backend call (neither confirmation
check is issued); a `lost=true` judgment makes the final verdict
`lost=true` exactly when the same-root or the translation confirmation
answers yes, and a double no is reported as a false alarm: no
violation. -/
theorem C1_verdict_pipeline (env : GenaiEnv) (fw : forbiddenWord)
    (said txt : String) (j : Judgment)
    (hgen : env.generateStructured (judgeSystemInstruction fw) said = .ok txt)
    (hparse : env.unmarshalJudgment txt = .ok j) :
    (j.lost = false →
      saidForbidden env fw said =
        (⟨false, "", "", none⟩,
         [.structured (judgeSystemInstruction fw) said])) ∧
    (j.lost = true → ∀ a1 a2 : String,
      env.generateYesNo (sameRootPrompt j.fragment j.forbiddenWord) = .ok a1 →
      env.generateYesNo (translationPrompt j.fragment j.forbiddenWord fw.languageName) =
        .ok a2 →
      ((saidForbidden env fw said).1.lost = true ↔
        (goStringToLower a1 == "yes") = true ∨ (goStringToLower a2 == "yes") = true) ∧
      ((goStringToLower a1 == "yes") = false →
       (goStringToLower a2 == "yes") = false →
        (saidForbidden env fw said).1 = ⟨false, "", "", none⟩)) := by
  constructor
  · intro hlost
    simp [saidForbidden, hgen, hparse, hlost]
  · intro hlost a1 a2 h1 h2
    have e1 : haveSameRoot env j.fragment j.forbiddenWord =
        (.ok (goStringToLower a1 == "yes"),
         [.yesNo (sameRootPrompt j.fragment j.forbiddenWord)]) := by
      simp [haveSameRoot, h1]
    have e2 : isTranslation env j.fragment j.forbiddenWord fw.languageName =
        (.ok (goStringToLower a2 == "yes"),
         [.yesNo (translationPrompt j.fragment j.forbiddenWord fw.languageName)]) := by
      simp [isTranslation, h2]
    cases hb1 : goStringToLower a1 == "yes" <;>
      cases hb2 : goStringToLower a2 == "yes" <;>
        simp [saidForbidden, hgen, hparse, hlost, e1, e2, hb1, hb2]

/-- Witness for C1: a confirmed loss (both checks answer yes) and a
`lost=false` short-circuit, at concrete environments. -/
theorem C1_witness :
    (saidForbidden
        ⟨fun _ _ => Except.ok "resp",
         fun _ => Except.ok ⟨true, "Pousser", "poussent"⟩,
         fun _ => Except.ok "Yes"⟩
        ⟨"Pousser", ["Bouger"], "French"⟩ "elles poussent").1.lost = true ∧
    saidForbidden
        ⟨fun _ _ => Except.ok "resp",
         fun _ => Except.ok ⟨false, "", ""⟩,
         fun _ => Except.ok "Yes"⟩
        ⟨"Pousser", ["Bouger"], "French"⟩ "bonjour" =
      (⟨false, "", "", none⟩,
       [.structured (judgeSystemInstruction ⟨"Pousser", ["Bouger"], "French"⟩)
          "bonjour"]) := by
  constructor
  · exact ((C1_verdict_pipeline
      ⟨fun _ _ => Except.ok "resp",
       fun _ => Except.ok ⟨true, "Pousser", "poussent"⟩,
       fun _ => Except.ok "Yes"⟩
      ⟨"Pousser", ["Bouger"], "French"⟩ "elles poussent" "resp"
      ⟨true, "Pousser", "poussent"⟩ rfl rfl).2 rfl "Yes" "Yes" rfl rfl).1.mpr
      (Or.inl (by decide))
  · exact (C1_verdict_pipeline
      ⟨fun _ _ => Except.ok "resp",
       fun _ => Except.ok ⟨false, "", ""⟩,
       fun _ => Except.ok "Yes"⟩
      ⟨"Pousser", ["Bouger"], "French"⟩ "bonjour" "resp"
      ⟨false, "", ""⟩ rfl rfl).1 rfl

/-- C5: `isWinning` returns true exactly when the normalized guess
contains the normalized secret word as a contiguous substring, and
normalization identifies "café" with "CAFE". -/
theorem C5_isWinning_normalized_substring :
    (∀ (fw : forbiddenWord) (guess : String),
      isWinning fw guess = true ↔
        ∃ pre post, normalize guess.data = pre ++ normalize fw.word.data ++ post) ∧
    normalizeStr "café" = normalizeStr "CAFE" := by
  constructor
  · intro fw guess
    exact goContains_iff (normalize guess.data) (normalize fw.word.data)
  · decide

/-- C6: one turn of the CLI main loop joins the concurrently issued
judge check and guesser reply, and a judge-confirmed loss decides the
turn — the guess, winning or not, is never consulted: the turn cannot
end in `aiWins`. -/
theorem C6_judge_loss_priority (fw : forbiddenWord) (env : TurnEnv)
    (s m g : String)
    (hj : env.judgeResult = ⟨true, s, m, none⟩)
    (hg : env.guessResult = .ok g) :
    playTurn fw env =
      (if normalizeStr s == normalizeStr m then TurnOutcome.lostExactMatch m
       else TurnOutcome.lostFuzzyMatch s m) ∧
    (isWinning fw g = true → playTurn fw env ≠ TurnOutcome.aiWins) := by
  have hp : playTurn fw env =
      (if normalizeStr s == normalizeStr m then TurnOutcome.lostExactMatch m
       else TurnOutcome.lostFuzzyMatch s m) := by
    simp [playTurn, hj, hg]
  refine ⟨hp, fun _ => ?_⟩
  rw [hp]
  cases h : normalizeStr s == normalizeStr m <;> simp

/-- Witness for C6: the judge confirms a loss in the same turn as a
winning guess; the turn ends in a loss. -/
theorem C6_witness :
    playTurn ⟨"Rope", ["Cord"], "English"⟩
        ⟨⟨true, "cord", "Cord", none⟩, Except.ok "rope"⟩ =
      TurnOutcome.lostExactMatch "Cord" ∧
    isWinning ⟨"Rope", ["Cord"], "English"⟩ "rope" = true := by
  have h := C6_judge_loss_priority ⟨"Rope", ["Cord"], "English"⟩
    ⟨⟨true, "cord", "Cord", none⟩, Except.ok "rope"⟩ "cord" "Cord" "rope" rfl rfl
  exact ⟨h.1.trans (by decide), by decide⟩

/-- C9: `normalize` is idempotent — a second pass of lowercasing plus
diacritic stripping changes nothing. -/
theorem C9_normalize_idempotent (s : Str) :
    normalize (normalize s) = normalize s := by
  have h := normalize_chars_normal s
  conv_lhs => rw [normalize]
  rw [map_fixed (fun c hc => (h c hc).1)]
  rw [nfd, flatMap_fixed (fun c hc => (h c hc).2.1)]
  rw [removeMn, List.filter_eq_self.mpr (fun c hc => by simp [(h c hc).2.2])]
  rw [nfc]
  exact nfcFuel_no_mark _ _ (fun c hc => (h c hc).2.2)

/-- C10: whenever `saidForbidden` returns a non-nil error — from the
structured request, from parsing its response, or from either
confirmation check — it returns `lost=false` with empty
`forbiddenSaid` and `forbiddenMatched`. -/
theorem C10_errored_turn_no_violation (env : GenaiEnv) (fw : forbiddenWord)
    (said : String) (e : GoErr)
    (h : (saidForbidden env fw said).1.err = some e) :
    (saidForbidden env fw said).1 = ⟨false, "", "", some e⟩ := by
  unfold saidForbidden at h ⊢
  cases hg : env.generateStructured (judgeSystemInstruction fw) said with
  | error e0 => simp_all
  | ok structureAnswer =>
    simp only [hg] at h ⊢
    cases hp : env.unmarshalJudgment structureAnswer with
    | error e1 => simp_all
    | ok result =>
      simp only [hp] at h ⊢
      cases hl : result.lost with
      | false => simp_all
      | true =>
        simp only [hl] at h ⊢
        cases hr1 : (haveSameRoot env result.fragment result.forbiddenWord).1 with
        | error e2 =>
          simp_all
        | ok b1 =>
          cases hr2 : (isTranslation env result.fragment result.forbiddenWord
              fw.languageName).1 with
          | error e3 => simp_all
          | ok b2 =>
            cases hb1 : b1 <;> cases hb2 : b2 <;> simp_all

/-- Witness for C10: a failing structured request yields an errored,
violation-free result. -/
theorem C10_witness :
    (saidForbidden
        ⟨fun _ _ => Except.error "rpc error: unavailable",
         fun _ => Except.ok ⟨false, "", ""⟩,
         fun _ => Except.ok "No"⟩
        ⟨"Rope", ["Cord"], "English"⟩ "hello").1 =
      ⟨false, "", "", some "rpc error: unavailable"⟩ := by
  exact C10_errored_turn_no_violation
    ⟨fun _ _ => Except.error "rpc error: unavailable",
     fun _ => Except.ok ⟨false, "", ""⟩,
     fun _ => Except.ok "No"⟩
    ⟨"Rope", ["Cord"], "English"⟩ "hello" "rpc error: unavailable" rfl

end Verboten
